import Mathlib

/-!
# Verification of `gradebook_manager.py`

A shallow embedding of the gradebook manager: a command-line tool that keeps
student records (`id`, `name`, `subject`, `grade`) in a comma-delimited file
and supports add, delete, list and statistics operations.

The persisted file is modelled as a list of raw rows (each field a string,
exactly the cells the CSV writer emits and the CSV reader hands back).
Python's `str.strip`, `str.lower`, `int(...)` and `str(...)` on integers are
modelled explicitly over character lists.  Interactive `input()` calls become
explicit string parameters; `print` output is not modelled.  Each handler
becomes a function from the file contents (and its input strings) to the new
file contents; an aborted handler performs no save, so it returns the file
unchanged.
-/

/-- Model of Python `str.strip()` on a character list: remove leading and
trailing whitespace characters. -/
def pyTrimList (cs : List Char) : List Char :=
  ((cs.dropWhile Char.isWhitespace).reverse.dropWhile Char.isWhitespace).reverse

/-- Model of Python `str.strip()` on strings. -/
def pyStrip (s : String) : String := ⟨pyTrimList s.data⟩

/-- Model of Python `str.lower()` on a single (ASCII) character. -/
def pyLowerChar (c : Char) : Char :=
  if 'A' ≤ c ∧ c ≤ 'Z' then Char.ofNat (c.toNat + 32) else c

/-- Model of Python `str.lower()`. -/
def pyLower (s : String) : String := ⟨s.data.map pyLowerChar⟩

/-- Positional value of a big-endian list of decimal digit characters,
accumulating left to right. -/
def digitsToNat (cs : List Char) : Nat :=
  cs.foldl (fun acc c => acc * 10 + (c.toNat - 48)) 0

/-- Model of Python `int(...)` applied to an already-stripped character list:
an optional sign followed by a nonempty run of decimal digits; anything else
raises `ValueError`, modelled as `none`. -/
def pyIntCore (cs : List Char) : Option Int :=
  match cs with
  | [] => none
  | c :: rest =>
    if c = '-' then
      if rest ≠ [] ∧ rest.all Char.isDigit then some (-(digitsToNat rest : Int)) else none
    else if c = '+' then
      if rest ≠ [] ∧ rest.all Char.isDigit then some ((digitsToNat rest : Int)) else none
    else
      if (c :: rest).all Char.isDigit then some ((digitsToNat (c :: rest) : Int)) else none

/-- Model of Python `int(s)` for a string `s`: `int` ignores surrounding
whitespace, then parses an optionally signed decimal numeral. -/
def pyInt (s : String) : Option Int := pyIntCore (pyTrimList s.data)

/-- Decimal digit characters of a positive natural number, big-endian,
produced by repeated division by 10; the first argument is fuel bounding the
recursion depth. -/
def natToCharsAux : Nat → Nat → List Char
  | 0, _ => []
  | fuel + 1, n =>
      if n = 0 then [] else natToCharsAux fuel (n / 10) ++ [Char.ofNat (48 + n % 10)]

/-- Decimal digit characters of a natural number, big-endian; `0` prints
as `"0"`. -/
def pyNatChars (n : Nat) : List Char :=
  if n = 0 then ['0'] else natToCharsAux n n

/-- Model of Python `str(i)` for an integer `i`. -/
def pyIntChars (i : Int) : List Char :=
  if i < 0 then '-' :: pyNatChars i.natAbs else pyNatChars i.natAbs

/-- Model of Python `str(i)` for an integer `i`, as a string. -/
def pyIntStr (i : Int) : String := ⟨pyIntChars i⟩

/-- One student record as held in memory after `load_students`:
`{"id": int, "name": str, "subject": str, "grade": int or None}`. -/
structure Student where
  id : Int
  name : String
  subject : String
  grade : Option Int
deriving Repr, DecidableEq

/-- One data row of the persisted CSV file (below the `id,name,subject,grade`
header): the four cell strings. -/
structure RawRow where
  id : String
  name : String
  subject : String
  grade : String
deriving Repr, DecidableEq

/-- Grade normalization in `load_students`:
`grade_raw = row.get("grade","").strip()`; `int(grade_raw)` if nonempty else
`None`; a `ValueError` also yields `None`. -/
def loadGrade (raw : String) : Option Int :=
  let grade_raw := pyStrip raw
  if grade_raw = "" then none else pyInt grade_raw

/-- The body of the `load_students` row loop: skip the row when the id cell is
empty or fails `int` parsing, otherwise build the normalized record. -/
def loadRow (r : RawRow) : Option Student :=
  if r.id = "" then none
  else
    match pyInt r.id with
    | none => none
    | some sid =>
        some { id := sid
               name := pyStrip r.name
               subject := pyStrip r.subject
               grade := loadGrade r.grade }

/-- `load_students()`: read every row of the file, skipping rows with a
missing or unparseable id, and normalize field types. -/
def load_students (rows : List RawRow) : List Student :=
  rows.filterMap loadRow

/-- The row written by `save_students` for one record: id and grade converted
to strings, unknown grade serialized as the empty cell. -/
def saveRow (s : Student) : RawRow :=
  { id := pyIntStr s.id
    name := s.name
    subject := s.subject
    grade := match s.grade with | none => "" | some g => pyIntStr g }

/-- `save_students(students)`: rewrite the whole file, one row per record in
list order. -/
def save_students (students : List Student) : List RawRow :=
  students.map saveRow

/-- `next_id(students)`: `1` for an empty list, else
`max(s["id"] for s in students) + 1`. -/
def next_id (students : List Student) : Int :=
  match students with
  | [] => 1
  | s :: rest => rest.foldl (fun m t => max m t.id) s.id + 1

/-- `add_student()`: load, allocate an id, validate the name (nonempty after
strip), default a blank subject to `"General"`, validate the grade (integer in
`[0,100]`); on any validation failure return without saving, else append the
new record and save.  The three `input()` results are the string
parameters; the returned list is the resulting file contents. -/
def add_student (rows : List RawRow) (nameIn subjectIn gradeIn : String) : List RawRow :=
  let students := load_students rows
  let sid := next_id students
  let name := pyStrip nameIn
  if name = "" then rows
  else
    let subject := if pyStrip subjectIn = "" then "General" else pyStrip subjectIn
    let grade_raw := pyStrip gradeIn
    match pyInt grade_raw with
    | none => rows
    | some grade_val =>
        if grade_val < 0 ∨ grade_val > 100 then rows
        else
          save_students (students ++ [{ id := sid, name := name, subject := subject, grade := some grade_val }])

/-- `delete_student()`: load; nothing to do on an empty store; parse the
entered id (`int(input().strip())`, abort on failure); abort when no record
matches; ask for confirmation (`input().strip().lower()` compared to
`"yes"`); on confirmation filter out the records with the chosen id and
save.  Abort paths perform no save, so they return the file unchanged. -/
def delete_student (rows : List RawRow) (idIn confirmIn : String) : List RawRow :=
  let students := load_students rows
  if students = [] then rows
  else
    match pyInt (pyStrip idIn) with
    | none => rows
    | some sid =>
        match students.find? (fun s => s.id = sid) with
        | none => rows
        | some _ =>
            if pyLower (pyStrip confirmIn) = "yes" then
              save_students (students.filter (fun s => s.id ≠ sid))
            else rows

/-- The record subset `show_stats` computes over, called `filtered` in the
source: when a truthy subject filter is given (Python truthiness: not `None`
and not the empty string), records whose lowercased subject equals the
lowercased filter and whose grade is known; otherwise all records with a
known grade. -/
def statsSelection (students : List Student) (subject_filter : Option String) : List Student :=
  match subject_filter with
  | some f =>
      if f = "" then students.filter (fun s => s.grade.isSome)
      else students.filter (fun s => pyLower s.subject = pyLower f ∧ s.grade.isSome)
  | none => students.filter (fun s => s.grade.isSome)

/-- The four numbers `show_stats` prints: count, arithmetic mean (exact, the
source formats it to two decimals), highest and lowest grade. -/
structure Stats where
  count : Nat
  average : ℚ
  highest : Int
  lowest : Int
deriving Repr, DecidableEq

/-- `show_stats(subject_filter)`: load, report nothing on an empty store,
select the graded (and, if filtered, subject-matching) records, report
nothing when the selection is empty, else print count, mean, max and min of
the selected grades.  `none` models the early-return/no-statistics paths. -/
def show_stats (students : List Student) (subject_filter : Option String) : Option Stats :=
  if students = [] then none
  else
    let filtered := statsSelection students subject_filter
    if filtered = [] then none
    else
      match filtered.filterMap (fun s => s.grade) with
      | [] => none
      | g :: gs =>
          some { count := (g :: gs).length
                 average := (((g :: gs).sum : Int) : ℚ) / (((g :: gs).length : Nat) : ℚ)
                 highest := gs.foldl max g
                 lowest := gs.foldl min g }

/-- Example store for the id-allocation scenario: ids {1, 2, 4}. -/
def exStore124 : List Student :=
  [{ id := 1, name := "Ada", subject := "CS", grade := some 95 },
   { id := 2, name := "Ben", subject := "Math", grade := none },
   { id := 4, name := "Cal", subject := "Math", grade := some 70 }]

/-- Example store for the statistics scenario: grades 70, 80, 90 in "Math"
plus one unknown-grade "Math" record. -/
def exMathStore : List Student :=
  [{ id := 1, name := "Ann", subject := "Math", grade := some 70 },
   { id := 2, name := "Bob", subject := "Math", grade := some 80 },
   { id := 3, name := "Cyd", subject := "Math", grade := some 90 },
   { id := 4, name := "Dan", subject := "Math", grade := none }]

/-- Example store with subjects "Math" and "Mathematics" for the filter
exactness scenario. -/
def exSubjectStore : List Student :=
  [{ id := 1, name := "Ann", subject := "Math", grade := some 50 },
   { id := 2, name := "Bob", subject := "Mathematics", grade := some 60 }]

/-- Example persisted file with two well-formed rows. -/
def exRows : List RawRow :=
  [{ id := "1", name := "Ann", subject := "Math", grade := "90" },
   { id := "2", name := "Bob", subject := "CS", grade := "80" }]

/-- Example persisted file with a single well-formed row. -/
def exRows1 : List RawRow :=
  [{ id := "1", name := "Ann", subject := "Math", grade := "90" }]

/-- A persisted row whose grade cell holds the out-of-range integer 150. -/
def row150 : RawRow := { id := "1", name := "Ada", subject := "Math", grade := "150" }

/-- A persisted row whose subject and grade cells are blank. -/
def rowBlankSubject : RawRow := { id := "1", name := "Ann", subject := "", grade := "" }

-- Sanity checks on the embedding (concrete evaluations).
example : pyInt "150" = some 150 := by decide
example : pyInt " -7 " = some (-7) := by decide
example : pyInt "12a" = none := by decide
example : pyInt "" = none := by decide
example : pyStrip "  ab " = "ab" := by decide
example : pyLower "MaTh" = "math" := by decide
example : pyIntStr 150 = "150" := by decide
example : pyIntStr (-7) = "-7" := by decide
example : pyIntStr 0 = "0" := by decide
example : load_students [⟨"1", " Ada ", "CS", "95"⟩] =
    [{ id := 1, name := "Ada", subject := "CS", grade := some 95 }] := by decide
example : load_students [⟨"x", "Bad", "CS", "95"⟩] = [] := by decide
example : next_id [] = 1 := by decide

/-! ## Library lemmas about `dropWhile` and trimming -/

lemma dropWhile_dropWhile (p : Char → Bool) :
    ∀ l : List Char, (l.dropWhile p).dropWhile p = l.dropWhile p := by
  intro l
  induction l with
  | nil => rfl
  | cons c t ih =>
      by_cases h : p c
      · simpa [List.dropWhile_cons, h] using ih
      · simp [List.dropWhile_cons, h]

lemma dropWhile_head_false (p : Char → Bool) :
    ∀ (l : List Char) (c : Char) (t : List Char), l.dropWhile p = c :: t → p c = false := by
  intro l
  induction l with
  | nil => intro c t h; simp [List.dropWhile] at h
  | cons x xs ih =>
      intro c t h
      by_cases hx : p x
      · exact ih c t (by simpa [List.dropWhile_cons, hx] using h)
      · rw [List.dropWhile_cons] at h
        simp [hx] at h
        simp [← h.1, hx]

lemma dropWhile_suffix (p : Char → Bool) :
    ∀ l : List Char, ∃ u, u ++ l.dropWhile p = l := by
  intro l
  induction l with
  | nil => exact ⟨[], rfl⟩
  | cons c t ih =>
      by_cases h : p c
      · obtain ⟨u, hu⟩ := ih
        exact ⟨c :: u, by simp [List.dropWhile_cons, h, hu]⟩
      · exact ⟨[], by simp [List.dropWhile_cons, h]⟩

lemma dropWhile_eq_self_of_all (p : Char → Bool) (l : List Char)
    (h : ∀ c ∈ l, p c = false) : l.dropWhile p = l := by
  cases l with
  | nil => rfl
  | cons c t => simp [List.dropWhile_cons, h c (by simp)]

lemma pyTrimList_eq_self_of_all (cs : List Char)
    (h : ∀ c ∈ cs, Char.isWhitespace c = false) : pyTrimList cs = cs := by
  unfold pyTrimList
  rw [dropWhile_eq_self_of_all _ _ h,
      dropWhile_eq_self_of_all _ _ (fun c hc => h c (by simpa using hc)),
      List.reverse_reverse]

lemma pyTrimList_idem (cs : List Char) : pyTrimList (pyTrimList cs) = pyTrimList cs := by
  unfold pyTrimList
  set ws := Char.isWhitespace
  set A := cs.dropWhile ws with hA
  set D := A.reverse.dropWhile ws with hD
  -- front stage on the already-trimmed list is the identity:
  -- `dropWhile` only inspects the head, and the head of `D.reverse` is the
  -- head of `A`, which `dropWhile` already certified as non-whitespace
  have hfront : D.reverse.dropWhile ws = D.reverse := by
    cases hrev : D.reverse with
    | nil => simp
    | cons x t =>
        -- `D` is a suffix of `A.reverse`, so `D.reverse` is a prefix of `A`
        obtain ⟨u, hu⟩ := dropWhile_suffix ws A.reverse
        have hAeq : A = D.reverse ++ u.reverse := by
          have := congrArg List.reverse hu
          simpa [hD] using this.symm
        have hxA : A = x :: (t ++ u.reverse) := by simpa [hrev] using hAeq
        have hx : ws x = false := dropWhile_head_false ws cs x _ (by rw [← hA, hxA])
        simp [List.dropWhile_cons, hx]
  rw [hfront, List.reverse_reverse]
  -- back stage: dropping whitespace from `D` again changes nothing
  have hback : D.dropWhile ws = D := by rw [hD]; exact dropWhile_dropWhile ws A.reverse
  rw [hback]

/-! ## Decimal digit characters -/

lemma digitCharFacts (d : Nat) (hd : d < 10) :
    (Char.ofNat (48 + d)).toNat = 48 + d ∧
    (Char.ofNat (48 + d)).isDigit = true ∧
    Char.isWhitespace (Char.ofNat (48 + d)) = false ∧
    Char.ofNat (48 + d) ≠ '-' ∧
    Char.ofNat (48 + d) ≠ '+' := by
  interval_cases d <;> exact ⟨rfl, rfl, rfl, by decide, by decide⟩

lemma natToCharsAux_mem :
    ∀ (fuel n : Nat), ∀ c ∈ natToCharsAux fuel n, ∃ d, d < 10 ∧ c = Char.ofNat (48 + d) := by
  intro fuel
  induction fuel with
  | zero => intro n c hc; simp [natToCharsAux] at hc
  | succ fuel ih =>
      intro n c hc
      by_cases hn : n = 0
      · simp [natToCharsAux, hn] at hc
      · rw [natToCharsAux, if_neg hn] at hc
        rcases List.mem_append.mp hc with h | h
        · exact ih (n / 10) c h
        · exact ⟨n % 10, Nat.mod_lt _ (by norm_num), by simpa using h⟩

lemma natToCharsAux_ne_nil (fuel n : Nat) (hn : n ≠ 0) (hf : fuel ≠ 0) :
    natToCharsAux fuel n ≠ [] := by
  cases fuel with
  | zero => exact absurd rfl hf
  | succ fuel => rw [natToCharsAux, if_neg hn]; simp

lemma natToCharsAux_val :
    ∀ (fuel n : Nat), n ≤ fuel → ∀ a : Nat,
      (natToCharsAux fuel n).foldl (fun acc c => acc * 10 + (c.toNat - 48)) a =
        a * 10 ^ (natToCharsAux fuel n).length + n := by
  intro fuel
  induction fuel with
  | zero =>
      intro n hn a
      interval_cases n
      simp [natToCharsAux]
  | succ fuel ih =>
      intro n hn a
      by_cases h0 : n = 0
      · simp [natToCharsAux, h0]
      · rw [natToCharsAux, if_neg h0]
        have hdiv : n / 10 ≤ fuel := by
          have := Nat.div_lt_self (Nat.pos_of_ne_zero h0) (by norm_num : 1 < 10)
          omega
        have hmod : (Char.ofNat (48 + n % 10)).toNat = 48 + n % 10 :=
          (digitCharFacts (n % 10) (Nat.mod_lt _ (by norm_num))).1
        rw [List.foldl_append, ih (n / 10) hdiv a]
        simp only [List.foldl_cons, List.foldl_nil, List.length_append, List.length_cons,
          List.length_nil, hmod]
        have : 48 + n % 10 - 48 = n % 10 := by omega
        rw [this, pow_succ]
        have hnm := Nat.div_add_mod n 10
        ring_nf
        omega

/-! ## `str(i)` / `int(s)` round trip -/

lemma pyNatChars_mem (n : Nat) :
    ∀ c ∈ pyNatChars n, ∃ d, d < 10 ∧ c = Char.ofNat (48 + d) := by
  intro c hc
  unfold pyNatChars at hc
  by_cases hn : n = 0
  · rw [if_pos hn] at hc
    exact ⟨0, by norm_num, by simpa using hc⟩
  · rw [if_neg hn] at hc
    exact natToCharsAux_mem n n c hc

lemma pyNatChars_ne_nil (n : Nat) : pyNatChars n ≠ [] := by
  unfold pyNatChars
  by_cases hn : n = 0
  · simp [hn]
  · rw [if_neg hn]; exact natToCharsAux_ne_nil n n hn hn

lemma pyNatChars_all_digits (n : Nat) : (pyNatChars n).all Char.isDigit = true := by
  rw [List.all_eq_true]
  intro c hc
  obtain ⟨d, hd, rfl⟩ := pyNatChars_mem n c hc
  exact (digitCharFacts d hd).2.1

lemma digitsToNat_pyNatChars (n : Nat) : digitsToNat (pyNatChars n) = n := by
  unfold digitsToNat pyNatChars
  by_cases hn : n = 0
  · simp [hn]
  · rw [if_neg hn]
    simpa using natToCharsAux_val n n le_rfl 0

lemma pyIntCore_pyNatChars (n : Nat) : pyIntCore (pyNatChars n) = some (n : Int) := by
  cases hL : pyNatChars n with
  | nil => exact absurd hL (pyNatChars_ne_nil n)
  | cons c rest =>
      have hcmem : c ∈ pyNatChars n := by rw [hL]; simp
      obtain ⟨d, hd, hc⟩ := pyNatChars_mem n c hcmem
      have hfacts := digitCharFacts d hd
      have hall : (c :: rest).all Char.isDigit = true := by
        rw [← hL]; exact pyNatChars_all_digits n
      rw [pyIntCore, if_neg (hc ▸ hfacts.2.2.2.1), if_neg (hc ▸ hfacts.2.2.2.2), if_pos hall]
      rw [← hL, digitsToNat_pyNatChars]

lemma pyNatChars_not_ws (n : Nat) : ∀ c ∈ pyNatChars n, Char.isWhitespace c = false := by
  intro c hc
  obtain ⟨d, hd, rfl⟩ := pyNatChars_mem n c hc
  exact (digitCharFacts d hd).2.2.1

lemma pyTrimList_pyIntChars (i : Int) : pyTrimList (pyIntChars i) = pyIntChars i := by
  apply pyTrimList_eq_self_of_all
  intro c hc
  unfold pyIntChars at hc
  by_cases hi : i < 0
  · rw [if_pos hi] at hc
    rcases List.mem_cons.mp hc with hcEq | hcMem
    · subst hcEq; decide
    · exact pyNatChars_not_ws _ c hcMem
  · rw [if_neg hi] at hc
    exact pyNatChars_not_ws _ c hc

lemma pyInt_pyIntStr (i : Int) : pyInt (pyIntStr i) = some i := by
  show pyIntCore (pyTrimList (pyIntChars i)) = some i
  rw [pyTrimList_pyIntChars]
  unfold pyIntChars
  by_cases hi : i < 0
  · rw [if_pos hi, pyIntCore, if_pos rfl,
      if_pos ⟨pyNatChars_ne_nil _, pyNatChars_all_digits _⟩, digitsToNat_pyNatChars]
    congr 1
    omega
  · rw [if_neg hi, pyIntCore_pyNatChars]
    congr 1
    omega

lemma pyIntStr_ne_empty (i : Int) : pyIntStr i ≠ "" := by
  unfold pyIntStr
  intro h
  have hdata : pyIntChars i = [] := congrArg String.data h
  unfold pyIntChars at hdata
  by_cases hi : i < 0
  · rw [if_pos hi] at hdata; exact List.cons_ne_nil _ _ hdata
  · rw [if_neg hi] at hdata; exact pyNatChars_ne_nil _ hdata

/-! ## String-level helpers and the load/save round trip -/

lemma pyStrip_idem (s : String) : pyStrip (pyStrip s) = pyStrip s :=
  congrArg String.mk (pyTrimList_idem s.data)

lemma pyInt_pyStrip (s : String) : pyInt (pyStrip s) = pyInt s := by
  show pyIntCore (pyTrimList (pyTrimList s.data)) = pyIntCore (pyTrimList s.data)
  rw [pyTrimList_idem]

lemma pyStrip_pyIntStr (i : Int) : pyStrip (pyIntStr i) = pyIntStr i :=
  congrArg String.mk (pyTrimList_pyIntChars i)

lemma loadGrade_empty : loadGrade "" = none := rfl

lemma loadGrade_pyIntStr (g : Int) : loadGrade (pyIntStr g) = some g := by
  unfold loadGrade
  rw [pyStrip_pyIntStr, if_neg (pyIntStr_ne_empty g), pyInt_pyIntStr]

/-- The normalization `load_students` applies to a record that went through
`save_students`: text fields get trimmed, everything else survives as-is. -/
def normalizeStudent (s : Student) : Student :=
  { s with name := pyStrip s.name, subject := pyStrip s.subject }

lemma loadRow_saveRow (s : Student) : loadRow (saveRow s) = some (normalizeStudent s) := by
  unfold loadRow saveRow normalizeStudent
  simp only
  rw [if_neg (pyIntStr_ne_empty s.id), pyInt_pyIntStr]
  cases hg : s.grade with
  | none => simp [loadGrade_empty]
  | some g => simp [loadGrade_pyIntStr]

lemma load_save (l : List Student) :
    load_students (save_students l) = l.map normalizeStudent := by
  unfold load_students save_students
  rw [List.filterMap_map]
  induction l with
  | nil => rfl
  | cons a t ih => simp [List.filterMap_cons, Function.comp, loadRow_saveRow, ih]

lemma loadRow_some_inv (r : RawRow) (s : Student) (h : loadRow r = some s) :
    s.name = pyStrip r.name ∧ s.subject = pyStrip r.subject ∧ s.grade = loadGrade r.grade := by
  unfold loadRow at h
  by_cases h1 : r.id = ""
  · rw [if_pos h1] at h; exact absurd h (by simp)
  · rw [if_neg h1] at h
    cases h2 : pyInt r.id with
    | none => rw [h2] at h; exact absurd h (by simp)
    | some sid =>
        rw [h2] at h
        injection h with h
        subst h
        exact ⟨rfl, rfl, rfl⟩

lemma normalize_load (rows : List RawRow) :
    ∀ s ∈ load_students rows, normalizeStudent s = s := by
  intro s hs
  obtain ⟨r, _, hload⟩ := List.mem_filterMap.mp hs
  obtain ⟨hn, hsub, _⟩ := loadRow_some_inv r s hload
  have h1 : pyStrip s.name = s.name := by rw [hn, pyStrip_idem]
  have h2 : pyStrip s.subject = s.subject := by rw [hsub, pyStrip_idem]
  cases s with
  | mk id name subject grade => simp only [normalizeStudent] at *; simp [h1, h2]

lemma load_save_of_normal (l : List Student) (h : ∀ s ∈ l, normalizeStudent s = s) :
    load_students (save_students l) = l := by
  rw [load_save]
  exact (List.map_congr_left h).trans (List.map_id l)

/-! ## `next_id` helper lemmas -/

lemma foldl_max_ge_init :
    ∀ (l : List Student) (a : Int), a ≤ l.foldl (fun m t => max m t.id) a := by
  intro l
  induction l with
  | nil => intro a; exact le_rfl
  | cons x t ih => intro a; exact le_trans (le_max_left a x.id) (ih (max a x.id))

lemma foldl_max_ge_mem :
    ∀ (l : List Student) (a : Int), ∀ s ∈ l, s.id ≤ l.foldl (fun m t => max m t.id) a := by
  intro l
  induction l with
  | nil => intro a s hs; simp at hs
  | cons x t ih =>
      intro a s hs
      rcases List.mem_cons.mp hs with rfl | hs
      · exact le_trans (le_max_right a s.id) (foldl_max_ge_init t (max a s.id))
      · exact ih (max a x.id) s hs

lemma foldl_max_mem :
    ∀ (l : List Student) (a : Int),
      l.foldl (fun m t => max m t.id) a = a ∨ ∃ s ∈ l, l.foldl (fun m t => max m t.id) a = s.id := by
  intro l
  induction l with
  | nil => intro a; exact Or.inl rfl
  | cons x t ih =>
      intro a
      rcases ih (max a x.id) with h | ⟨s, hs, h⟩
      · rcases max_choice a x.id with hm | hm
        · exact Or.inl (by rw [List.foldl_cons, h, hm])
        · exact Or.inr ⟨x, by simp, by rw [List.foldl_cons, h, hm]⟩
      · exact Or.inr ⟨s, List.mem_cons_of_mem x hs, by rw [List.foldl_cons, h]⟩

lemma next_id_cons (x : Student) (t : List Student) :
    next_id (x :: t) = t.foldl (fun m u => max m u.id) x.id + 1 := rfl

lemma next_id_gt (l : List Student) : ∀ s ∈ l, s.id < next_id l := by
  intro s hs
  cases l with
  | nil => simp at hs
  | cons x t =>
      have h := foldl_max_ge_mem (x :: t) x.id s hs
      rw [List.foldl_cons, max_self] at h
      rw [next_id_cons]
      omega

/-! ## `delete_student` helper lemmas -/

lemma delete_student_bad_id (rows : List RawRow) (idIn confirmIn : String)
    (h : pyInt (pyStrip idIn) = none) : delete_student rows idIn confirmIn = rows := by
  unfold delete_student
  by_cases hE : load_students rows = []
  · rw [if_pos hE]
  · rw [if_neg hE, h]

lemma delete_student_no_match (rows : List RawRow) (idIn confirmIn : String) (k : Int)
    (hk : pyInt (pyStrip idIn) = some k)
    (hnone : ∀ s ∈ load_students rows, s.id ≠ k) :
    delete_student rows idIn confirmIn = rows := by
  unfold delete_student
  by_cases hE : load_students rows = []
  · rw [if_pos hE]
  · rw [if_neg hE, hk]
    dsimp only
    have hfind : (load_students rows).find? (fun s => decide (s.id = k)) = none :=
      List.find?_eq_none.mpr (fun s hs => by simpa using hnone s hs)
    rw [hfind]

lemma delete_student_not_confirmed (rows : List RawRow) (idIn confirmIn : String)
    (h : pyLower (pyStrip confirmIn) ≠ "yes") : delete_student rows idIn confirmIn = rows := by
  unfold delete_student
  by_cases hE : load_students rows = []
  · rw [if_pos hE]
  · rw [if_neg hE]
    cases hk : pyInt (pyStrip idIn) with
    | none => rfl
    | some k =>
        dsimp only
        cases hfind : (load_students rows).find? (fun s => decide (s.id = k)) with
        | none => rfl
        | some t => dsimp only; rw [if_neg h]

lemma delete_student_confirmed (rows : List RawRow) (idIn confirmIn : String) (k : Int)
    (hk : pyInt (pyStrip idIn) = some k)
    (hc : pyLower (pyStrip confirmIn) = "yes")
    (hex : ∃ s ∈ load_students rows, s.id = k) :
    delete_student rows idIn confirmIn =
      save_students ((load_students rows).filter (fun s => s.id ≠ k)) := by
  unfold delete_student
  obtain ⟨s0, hs0, hid0⟩ := hex
  rw [if_neg (List.ne_nil_of_mem hs0), hk]
  dsimp only
  have hfind : ((load_students rows).find? (fun s => decide (s.id = k))).isSome :=
    List.find?_isSome.mpr ⟨s0, hs0, by simpa using hid0⟩
  obtain ⟨t, ht⟩ := Option.isSome_iff_exists.mp hfind
  rw [ht]
  dsimp only
  rw [if_pos hc]

lemma length_filter_ne_of_pairwise (l : List Student) (k : Int)
    (hp : l.Pairwise (fun a b => a.id ≠ b.id)) (hex : ∃ s ∈ l, s.id = k) :
    l.length = (l.filter (fun s => s.id ≠ k)).length + 1 := by
  induction l with
  | nil => obtain ⟨s, hs, _⟩ := hex; simp at hs
  | cons x t ih =>
      obtain ⟨hx_t, hpt⟩ := List.pairwise_cons.mp hp
      by_cases hx : x.id = k
      · have hall : List.filter (fun s => !decide (s.id = k)) t = t :=
          List.filter_eq_self.mpr (fun s hs => by
            simp only [Bool.not_eq_true', decide_eq_false_iff_not]
            exact fun h => hx_t s hs (hx.trans h.symm))
        simp [List.filter_cons, hx, hall]
      · obtain ⟨s, hs, hsk⟩ := hex
        rcases List.mem_cons.mp hs with rfl | hs
        · exact absurd hsk hx
        · have := ih hpt ⟨s, hs, hsk⟩
          simp [List.filter_cons, hx, this]

/-! ## `show_stats` helper lemmas -/

lemma statsSelection_nil (subj : Option String) : statsSelection [] subj = [] := by
  unfold statsSelection
  cases subj with
  | none => rfl
  | some f => by_cases hf : f = "" <;> simp [hf]

lemma statsSelection_filter_isSome (students : List Student) (subj : Option String) :
    statsSelection (students.filter (fun s => s.grade.isSome)) subj =
      statsSelection students subj := by
  unfold statsSelection
  cases subj with
  | none => rw [List.filter_filter]; apply List.filter_congr; intro s _; simp
  | some f =>
      by_cases hf : f = ""
      · simp only [hf, if_pos rfl]
        rw [List.filter_filter]; apply List.filter_congr; intro s _; simp
      · simp only [if_neg hf]
        rw [List.filter_filter]
        apply List.filter_congr
        intro s _
        cases hb : s.grade.isSome <;> simp [hb]

lemma show_stats_filter_isSome (students : List Student) (subj : Option String) :
    show_stats students subj =
      show_stats (students.filter (fun s => s.grade.isSome)) subj := by
  unfold show_stats
  by_cases hs : students = []
  · subst hs; simp
  · rw [if_neg hs]
    by_cases hf : students.filter (fun s => s.grade.isSome) = []
    · rw [hf]
      simp only [if_pos rfl, statsSelection_nil]
      have hsel : statsSelection students subj = [] := by
        rw [← statsSelection_filter_isSome, hf, statsSelection_nil]
      rw [hsel]
      simp
    · rw [if_neg hf, statsSelection_filter_isSome]

/-! ## `add_student` helper lemmas -/

lemma add_student_empty_name (rows : List RawRow) (nameIn subjectIn gradeIn : String)
    (h : pyStrip nameIn = "") : add_student rows nameIn subjectIn gradeIn = rows := by
  unfold add_student
  rw [if_pos h]

lemma add_student_bad_grade (rows : List RawRow) (nameIn subjectIn gradeIn : String)
    (h : pyInt gradeIn = none) : add_student rows nameIn subjectIn gradeIn = rows := by
  unfold add_student
  by_cases hn : pyStrip nameIn = ""
  · rw [if_pos hn]
  · rw [if_neg hn]
    dsimp only
    have h' : pyInt (pyStrip gradeIn) = none := by rw [pyInt_pyStrip]; exact h
    rw [h']

lemma add_student_out_of_range (rows : List RawRow) (nameIn subjectIn gradeIn : String)
    (g : Int) (hg : pyInt gradeIn = some g) (hout : g < 0 ∨ g > 100) :
    add_student rows nameIn subjectIn gradeIn = rows := by
  unfold add_student
  by_cases hn : pyStrip nameIn = ""
  · rw [if_pos hn]
  · rw [if_neg hn]
    dsimp only
    have h' : pyInt (pyStrip gradeIn) = some g := by rw [pyInt_pyStrip]; exact hg
    rw [h']
    dsimp only
    rw [if_pos hout]

lemma add_student_success (rows : List RawRow) (nameIn subjectIn gradeIn : String)
    (g : Int) (hn : pyStrip nameIn ≠ "") (hg : pyInt gradeIn = some g)
    (h0 : 0 ≤ g) (h100 : g ≤ 100) :
    add_student rows nameIn subjectIn gradeIn =
      save_students (load_students rows ++
        [{ id := next_id (load_students rows)
           name := pyStrip nameIn
           subject := if pyStrip subjectIn = "" then "General" else pyStrip subjectIn
           grade := some g }]) := by
  unfold add_student
  rw [if_neg hn]
  dsimp only
  have h' : pyInt (pyStrip gradeIn) = some g := by rw [pyInt_pyStrip]; exact hg
  rw [h']
  dsimp only
  rw [if_neg (by omega : ¬(g < 0 ∨ g > 100))]

/-! ## `loadGrade` helper lemmas -/

lemma loadGrade_of_pyInt_none (raw : String) (h : pyInt raw = none) : loadGrade raw = none := by
  unfold loadGrade
  by_cases he : pyStrip raw = ""
  · rw [if_pos he]
  · rw [if_neg he, pyInt_pyStrip, h]

lemma loadGrade_of_pyInt_some (raw : String) (g : Int)
    (hne : pyStrip raw ≠ "") (h : pyInt raw = some g) : loadGrade raw = some g := by
  unfold loadGrade
  rw [if_neg hne, pyInt_pyStrip, h]

/-! ## Claim theorems -/

/-- C1: `next_id` returns 1 on an empty record set; on a nonempty set it
returns the maximum id plus one (the value one below the result is an id of
the set and bounds every id of the set); for a store with ids {1,2,4} the
next add assigns id 5; and whenever all existing ids are positive, the
returned id is distinct from every id in the set. -/
theorem C1_next_id_correct :
    next_id [] = 1 ∧
    (∀ l : List Student, l ≠ [] →
        (next_id l - 1) ∈ l.map Student.id ∧ ∀ i ∈ l.map Student.id, i ≤ next_id l - 1) ∧
    next_id exStore124 = 5 ∧
    (∀ l : List Student, ∀ s ∈ l, (∀ t ∈ l, 0 < t.id) → next_id l ≠ s.id) := by
  refine ⟨rfl, ?_, by decide, ?_⟩
  · intro l hl
    constructor
    · cases l with
      | nil => exact absurd rfl hl
      | cons x t =>
          have hv : next_id (x :: t) - 1 = t.foldl (fun m u => max m u.id) x.id := by
            rw [next_id_cons]; ring
          rw [hv]
          rcases foldl_max_mem t x.id with h | ⟨s, hs, h⟩
          · rw [h]; exact List.mem_map.mpr ⟨x, by simp, rfl⟩
          · rw [h]; exact List.mem_map.mpr ⟨s, by simp [hs], rfl⟩
    · intro i hi
      obtain ⟨s, hs, rfl⟩ := List.mem_map.mp hi
      have := next_id_gt l s hs
      omega
  · intro l s hs _
    have := next_id_gt l s hs
    omega

/-- Witness for C1: instantiated on the store with ids {1,2,4}. -/
theorem C1_next_id_correct_witness :
    ((next_id exStore124 - 1) ∈ exStore124.map Student.id ∧
      ∀ i ∈ exStore124.map Student.id, i ≤ next_id exStore124 - 1) ∧
    next_id exStore124 ≠ 1 := by
  constructor
  · exact C1_next_id_correct.2.1 exStore124 (by decide)
  · exact C1_next_id_correct.2.2.2 exStore124
      { id := 1, name := "Ada", subject := "CS", grade := some 95 } (by decide) (by decide)

/-- C2 is false as stated: a persisted grade cell holding the out-of-range
integer "150" is loaded as grade 150, kept as-is rather than normalized to
unknown, so a loaded record can carry a present grade outside [0,100]. -/
theorem C2_out_of_range_grade_kept :
    (load_students [row150]).map Student.grade = [some 150] ∧
    ¬ (∀ s ∈ load_students [row150], ∀ g : Int, s.grade = some g → 0 ≤ g ∧ g ≤ 100) := by
  constructor
  · decide
  · intro h
    have h150 := h { id := 1, name := "Ada", subject := "Math", grade := some 150 }
      (by decide) 150 rfl
    omega

/-- C2 (amended): for every record produced by `load_students`, the grade is
exactly `loadGrade` of the raw cell; a grade cell that is missing or fails
integer parsing is normalized to unknown rather than rejected, while a cell
that parses as an integer is kept as-is even when it lies outside [0,100]. -/
theorem C2_amended_grade_normalization :
    (∀ (r : RawRow) (s : Student), loadRow r = some s → s.grade = loadGrade r.grade) ∧
    (∀ raw : String, pyInt raw = none → loadGrade raw = none) ∧
    (∀ (raw : String) (g : Int), pyStrip raw ≠ "" → pyInt raw = some g →
        loadGrade raw = some g) ∧
    loadGrade "" = none ∧ loadGrade "abc" = none ∧ loadGrade "150" = some 150 := by
  refine ⟨?_, loadGrade_of_pyInt_none, loadGrade_of_pyInt_some, rfl, by decide, by decide⟩
  intro r s h
  exact (loadRow_some_inv r s h).2.2

/-- Witness for C2 (amended): a parsable cell is kept, an unparsable one
becomes unknown. -/
theorem C2_amended_grade_normalization_witness :
    loadGrade " 42 " = some 42 ∧ loadGrade "n/a" = none :=
  ⟨C2_amended_grade_normalization.2.2.1 " 42 " 42 (by decide) (by decide),
   C2_amended_grade_normalization.2.1 "n/a" (by decide)⟩

/-- C3: the add operation is a hard validation gate: an empty (after
trimming) name, a grade that fails integer parsing, or a grade outside
[0,100] — in particular the input "150" — aborts the add and leaves the
persisted store exactly as it was. -/
theorem C3_add_validation_gate :
    (∀ (rows : List RawRow) (nameIn subjectIn gradeIn : String),
        pyStrip nameIn = "" → add_student rows nameIn subjectIn gradeIn = rows) ∧
    (∀ (rows : List RawRow) (nameIn subjectIn gradeIn : String),
        pyInt gradeIn = none → add_student rows nameIn subjectIn gradeIn = rows) ∧
    (∀ (rows : List RawRow) (nameIn subjectIn gradeIn : String) (g : Int),
        pyInt gradeIn = some g → (g < 0 ∨ g > 100) →
        add_student rows nameIn subjectIn gradeIn = rows) ∧
    (∀ (rows : List RawRow) (nameIn subjectIn : String),
        add_student rows nameIn subjectIn "150" = rows) :=
  ⟨add_student_empty_name, add_student_bad_grade, add_student_out_of_range,
   fun rows n s => add_student_out_of_range rows n s "150" 150 (by decide) (by decide)⟩

/-- Witness for C3: blank name, unparsable grade and out-of-range grade all
leave an empty store empty. -/
theorem C3_add_validation_gate_witness :
    add_student [] "   " "Math" "50" = [] ∧
    add_student [] "Ada" "Math" "fifty" = [] ∧
    add_student [] "Ada" "Math" "150" = [] :=
  ⟨C3_add_validation_gate.1 [] "   " "Math" "50" (by decide),
   C3_add_validation_gate.2.1 [] "Ada" "Math" "fifty" (by decide),
   C3_add_validation_gate.2.2.1 [] "Ada" "Math" "150" 150 (by decide) (by decide)⟩

/-- C4: saving any record set and reloading it yields an equivalent set:
ids and grades are preserved exactly (an absent grade stays absent), and the
text fields come back trimmed of surrounding whitespace. -/
theorem C4_save_load_round_trip (students : List Student) :
    load_students (save_students students) =
      students.map (fun s =>
        { s with name := pyStrip s.name, subject := pyStrip s.subject }) := by
  rw [load_save]
  exact List.map_congr_left (fun s _ => rfl)

/-- C5: on a store with pairwise distinct ids, a confirmed delete of id `k`
removes exactly the one record with id `k` and keeps every other record
unchanged (the reloaded store is the original minus that record, and every
other record is still present verbatim); a non-integer id input or an
unmatched id leaves the persisted file unchanged. -/
theorem C5_delete_exact_minimal :
    (∀ (rows : List RawRow) (idIn confirmIn : String) (k : Int),
        (load_students rows).Pairwise (fun a b => a.id ≠ b.id) →
        pyInt (pyStrip idIn) = some k →
        pyLower (pyStrip confirmIn) = "yes" →
        (∃ s ∈ load_students rows, s.id = k) →
        load_students (delete_student rows idIn confirmIn) =
          (load_students rows).filter (fun s => s.id ≠ k) ∧
        (load_students rows).length =
          ((load_students rows).filter (fun s => s.id ≠ k)).length + 1 ∧
        (∀ s ∈ load_students rows, s.id ≠ k →
            s ∈ load_students (delete_student rows idIn confirmIn))) ∧
    (∀ (rows : List RawRow) (idIn confirmIn : String),
        pyInt (pyStrip idIn) = none → delete_student rows idIn confirmIn = rows) ∧
    (∀ (rows : List RawRow) (idIn confirmIn : String) (k : Int),
        pyInt (pyStrip idIn) = some k →
        (∀ s ∈ load_students rows, s.id ≠ k) →
        delete_student rows idIn confirmIn = rows) := by
  refine ⟨?_, delete_student_bad_id, delete_student_no_match⟩
  intro rows idIn confirmIn k hp hk hc hex
  have hres : load_students (delete_student rows idIn confirmIn) =
      (load_students rows).filter (fun s => s.id ≠ k) := by
    rw [delete_student_confirmed rows idIn confirmIn k hk hc hex]
    exact load_save_of_normal _ (fun s hs =>
      normalize_load rows s (List.mem_of_mem_filter hs))
  refine ⟨hres, length_filter_ne_of_pairwise _ k hp hex, ?_⟩
  intro s hs hne
  rw [hres]
  exact List.mem_filter.mpr ⟨hs, decide_eq_true hne⟩

/-- Witness for C5: deleting id 1 from a two-record store. -/
theorem C5_delete_exact_minimal_witness :
    load_students (delete_student exRows "1" " Yes ") =
      (load_students exRows).filter (fun s => s.id ≠ 1) ∧
    (load_students exRows).length =
      ((load_students exRows).filter (fun s => s.id ≠ 1)).length + 1 ∧
    (∀ s ∈ load_students exRows, s.id ≠ 1 →
        s ∈ load_students (delete_student exRows "1" " Yes ")) :=
  C5_delete_exact_minimal.1 exRows "1" " Yes " 1 (by decide) (by decide) (by decide)
    (by decide)

/-- C6: the statistics computation never lets an unknown-grade record
contribute: restricting the store to its known-grade records first changes
nothing; and on the scenario store (grades 70, 80, 90 in "Math" plus one
unknown-grade "Math" record) the "Math" stats are count 3, average 80,
highest 90, lowest 70. -/
theorem C6_stats_exclude_unknown :
    (∀ (students : List Student) (subj : Option String),
        show_stats students subj =
          show_stats (students.filter (fun s => s.grade.isSome)) subj) ∧
    show_stats exMathStore (some "Math") =
      some { count := 3, average := 80, highest := 90, lowest := 70 } := by
  refine ⟨show_stats_filter_isSome, ?_⟩
  have h : show_stats exMathStore (some "Math") =
      some { count := 3, average := ((240 : Int) : ℚ) / ((3 : Nat) : ℚ),
             highest := 90, lowest := 70 } := rfl
  rw [h]
  norm_num [Stats.mk.injEq]

/-- C7: a record enters the subject-filtered statistics subset exactly when
its stored subject equals the filter case-insensitively — an exact match,
not a substring match: filter "math" matches subject "Math" but not
"Mathematics". -/
theorem C7_subject_filter_exact_case_insensitive :
    (∀ (students : List Student) (f : String), f ≠ "" → ∀ s : Student,
        s ∈ statsSelection students (some f) ↔
          s ∈ students ∧ pyLower s.subject = pyLower f ∧ s.grade.isSome = true) ∧
    pyLower "Math" = pyLower "math" ∧
    pyLower "Mathematics" ≠ pyLower "math" ∧
    statsSelection exSubjectStore (some "math") =
      [{ id := 1, name := "Ann", subject := "Math", grade := some 50 }] := by
  refine ⟨?_, by decide, by decide, by decide⟩
  intro students f hf s
  unfold statsSelection
  dsimp only
  rw [if_neg hf, List.mem_filter]
  constructor
  · rintro ⟨h1, h2⟩
    have h3 := of_decide_eq_true h2
    exact ⟨h1, h3.1, h3.2⟩
  · rintro ⟨h1, h2, h3⟩
    exact ⟨h1, decide_eq_true ⟨h2, h3⟩⟩

/-- Witness for C7: the characterization instantiated at the "Math" record
and filter "math". -/
theorem C7_subject_filter_exact_case_insensitive_witness :
    ({ id := 1, name := "Ann", subject := "Math", grade := some 50 } : Student) ∈
        statsSelection exSubjectStore (some "math") ↔
      ({ id := 1, name := "Ann", subject := "Math", grade := some 50 } : Student) ∈
          exSubjectStore ∧
        pyLower "Math" = pyLower "math" ∧ (some (50 : Int)).isSome = true :=
  C7_subject_filter_exact_case_insensitive.1 exSubjectStore "math" (by decide)
    { id := 1, name := "Ann", subject := "Math", grade := some 50 }

/-- C8 is false as stated: the raw response "YES" is not equal to the single
accepted token "yes", yet the deletion is performed (the one-record store
becomes empty instead of staying unchanged). -/
theorem C8_uppercase_yes_confirms :
    ("YES" : String) ≠ "yes" ∧
    delete_student exRows1 "1" "YES" = [] ∧
    exRows1 ≠ [] := by decide

/-- C8 (amended): the confirmation is an exact string-equality check against
the single token "yes", applied to the response after trimming whitespace
and lowercasing: every response not normalizing to "yes" aborts with the
file unchanged, and every response normalizing to "yes" performs the
deletion. -/
theorem C8_amended_normalized_token_equality :
    (∀ (rows : List RawRow) (idIn confirmIn : String),
        pyLower (pyStrip confirmIn) ≠ "yes" → delete_student rows idIn confirmIn = rows) ∧
    (∀ (rows : List RawRow) (idIn confirmIn : String) (k : Int),
        pyLower (pyStrip confirmIn) = "yes" →
        pyInt (pyStrip idIn) = some k →
        (∃ s ∈ load_students rows, s.id = k) →
        delete_student rows idIn confirmIn =
          save_students ((load_students rows).filter (fun s => s.id ≠ k))) :=
  ⟨delete_student_not_confirmed,
   fun rows idIn c k hc hk hex => delete_student_confirmed rows idIn c k hk hc hex⟩

/-- Witness for C8 (amended): "no" aborts, "YES" (normalizing to "yes")
deletes. -/
theorem C8_amended_normalized_token_equality_witness :
    delete_student exRows "1" "no" = exRows ∧
    delete_student exRows "1" "YES" =
      save_students ((load_students exRows).filter (fun s => s.id ≠ 1)) :=
  ⟨C8_amended_normalized_token_equality.1 exRows "1" "no" (by decide),
   C8_amended_normalized_token_equality.2 exRows "1" "YES" 1 (by decide) (by decide)
     (by decide)⟩

/-- C9 is false as stated for loading: a persisted row whose subject cell is
blank loads with subject equal to the empty string, not the placeholder
"General", so a stored record's subject can be empty text. -/
theorem C9_blank_subject_not_defaulted_on_load :
    (load_students [rowBlankSubject]).map Student.subject = [""] ∧
    ("" : String) ≠ "General" := by decide

/-- C9 (amended): the subject defaults to the fixed placeholder "General"
only during add, when the entered subject is blank after trimming;
`load_students` keeps a blank or absent subject cell as the (possibly
empty) trimmed text. -/
theorem C9_amended_subject_default_only_on_add :
    (∀ (rows : List RawRow) (nameIn subjectIn gradeIn : String) (g : Int),
        pyStrip nameIn ≠ "" → pyStrip subjectIn = "" →
        pyInt gradeIn = some g → 0 ≤ g → g ≤ 100 →
        add_student rows nameIn subjectIn gradeIn =
          save_students (load_students rows ++
            [{ id := next_id (load_students rows), name := pyStrip nameIn,
               subject := "General", grade := some g }])) ∧
    (∀ (r : RawRow) (s : Student), loadRow r = some s → s.subject = pyStrip r.subject) := by
  constructor
  · intro rows nameIn subjectIn gradeIn g hn hsub hg h0 h100
    rw [add_student_success rows nameIn subjectIn gradeIn g hn hg h0 h100, if_pos hsub]
  · intro r s h
    exact (loadRow_some_inv r s h).2.1

/-- Witness for C9 (amended): adding with a whitespace-only subject stores
"General". -/
theorem C9_amended_subject_default_only_on_add_witness :
    add_student [] "Ada" "   " "95" =
      save_students (load_students [] ++
        [{ id := next_id (load_students []), name := pyStrip "Ada",
           subject := "General", grade := some 95 }]) :=
  C9_amended_subject_default_only_on_add.1 [] "Ada" "   " "95" 95 (by decide) (by decide)
    (by decide) (by decide) (by decide)

/-- C10: a save/load cycle returns the records in exactly the order they
were given — `save_students` writes rows in list order and `load_students`
appends in file order, so the sequence of ids is preserved, not merely the
set. -/
theorem C10_save_load_preserves_order (students : List Student) :
    (load_students (save_students students)).map Student.id = students.map Student.id := by
  rw [load_save, List.map_map]
  exact List.map_congr_left (fun s _ => rfl)
